import Mathlib

/-!
Shallow embedding of the testcontainers-learning client facades.

The repository wraps three backing stores behind thin Go clients:
- a relational facade over PostgreSQL (postgres/client.go),
- a document-store facade over DynamoDB (dynamodb/client.go),
- a key-value cache facade over Redis (redis/client.go),
plus an integration-test harness with setup/teardown helpers.

Each Go method delegates to its backing store.  The embedding models the
backing-store state explicitly (a relational table as a list of rows with a
serial counter, the document store as tables of attribute maps, the cache as
key/value and key/list maps with absolute expiry stamps) and translates each
facade method into a pure function over that state, keeping the facade's own
control flow (error mapping, rows-affected checks, transaction rollback)
exactly as written in the source.
-/

/-! ### Association lists keyed by strings

Both the database catalog (table name to table), the cache keyspace and the
document store are keyed maps; they are embedded as association lists. -/

namespace Assoc

def find {α : Type} : List (String × α) → String → Option α
| [], _ => none
| p :: rest, k => if p.1 = k then some p.2 else Assoc.find rest k

def set {α : Type} : List (String × α) → String → α → List (String × α)
| [], k, v => [(k, v)]
| p :: rest, k, v => if p.1 = k then (k, v) :: rest else p :: Assoc.set rest k v

def erase {α : Type} : List (String × α) → String → List (String × α)
| [], _ => []
| p :: rest, k => if p.1 = k then Assoc.erase rest k else p :: Assoc.erase rest k

end Assoc

/-! ### The relational facade (postgres/client.go)

PostgreSQL state: the schema fixed by CreateTable (postgres/client.go:46-58)
is {id SERIAL PRIMARY KEY, name, email UNIQUE, created_at}.  A table is its
row list plus the SERIAL counter; the database is a catalog of named tables. -/

namespace PG

structure Row where
  id : Int
  name : String
  email : String
  created_at : Nat
deriving DecidableEq, Repr

structure Table where
  rows : List Row
  nextId : Int
deriving DecidableEq, Repr

def Table.empty : Table := ⟨[], 1⟩

abbrev DB := List (String × Table)

inductive PgError where
  | uniqueViolation (email : String)
  | undefinedTable (tableName : String)
  | errNoRows
  | userNotFound (id : Int)
  | rollbackFailed
deriving DecidableEq, Repr

/-- CREATE TABLE IF NOT EXISTS (postgres/client.go:46-58): an existing table
is left untouched, otherwise an empty table is added to the catalog. -/
def createState (db : DB) (tableName : String) : DB :=
  match Assoc.find db tableName with
  | some _ => db
  | none => db ++ [(tableName, Table.empty)]

def CreateTable (db : DB) (tableName : String) : Except PgError DB :=
  .ok (createState db tableName)

/-- DROP TABLE IF EXISTS (postgres/client.go:61-65). -/
def dropState (db : DB) (tableName : String) : DB :=
  Assoc.erase db tableName

def DropTable (db : DB) (tableName : String) : Except PgError DB :=
  .ok (dropState db tableName)

/-- INSERT INTO t (name, email) VALUES ($1, $2) RETURNING id
(postgres/client.go:68-77): the UNIQUE constraint on email rejects a
duplicate; otherwise the row gets the next SERIAL id. -/
def insertExec (t : Table) (name email : String) (now : Nat) :
    Except PgError (Table × Int) :=
  if ∃ r ∈ t.rows, r.email = email then .error (.uniqueViolation email)
  else .ok (⟨t.rows ++ [⟨t.nextId, name, email, now⟩], t.nextId + 1⟩, t.nextId)

def InsertUser (db : DB) (tableName name email : String) (now : Nat) :
    Except PgError (DB × Int) :=
  match Assoc.find db tableName with
  | none => .error (.undefinedTable tableName)
  | some t =>
    match insertExec t name email now with
    | .error e => .error e
    | .ok (t2, id) => .ok (Assoc.set db tableName t2, id)

/-- db.GetContext over SELECT * FROM t WHERE id = $1: the first matching row,
or sql.ErrNoRows when none matches. -/
def getContext (t : Table) (id : Int) : Except PgError Row :=
  match t.rows.find? (fun r => decide (r.id = id)) with
  | some r => .ok r
  | none => .error .errNoRows

/-- GetUser (postgres/client.go:80-92): sql.ErrNoRows is mapped to the
(nil, nil) sentinel; every other error is surfaced. -/
def GetUser (db : DB) (tableName : String) (id : Int) :
    Except PgError (Option Row) :=
  match Assoc.find db tableName with
  | none => .error (.undefinedTable tableName)
  | some t =>
    match getContext t id with
    | .error .errNoRows => .ok none
    | .error e => .error e
    | .ok r => .ok (some r)

/-- UPDATE t SET name = $1, email = $2 WHERE id = $3: rewrites every row whose
id matches and reports the number of affected rows; the UNIQUE email
constraint fails the statement when an updated row would collide with a
different row's email. -/
def updateExec (t : Table) (id : Int) (name email : String) :
    Except PgError (Table × Nat) :=
  if (∃ r ∈ t.rows, r.id = id) ∧ (∃ r ∈ t.rows, ¬r.id = id ∧ r.email = email) then
    .error (.uniqueViolation email)
  else
    .ok (⟨t.rows.map (fun r => if r.id = id then ⟨r.id, name, email, r.created_at⟩ else r),
          t.nextId⟩,
         t.rows.countP (fun r => decide (r.id = id)))

/-- UpdateUser (postgres/client.go:104-125): zero affected rows is turned into
the "user with id %d not found" error. -/
def UpdateUser (db : DB) (tableName : String) (id : Int) (name email : String) :
    Except PgError DB :=
  match Assoc.find db tableName with
  | none => .error (.undefinedTable tableName)
  | some t =>
    match updateExec t id name email with
    | .error e => .error e
    | .ok (t2, rowsAffected) =>
      if rowsAffected = 0 then .error (.userNotFound id)
      else .ok (Assoc.set db tableName t2)

/-- DELETE FROM t WHERE id = $1: drops every row whose id matches and reports
the number of affected rows. -/
def deleteExec (t : Table) (id : Int) : Table × Nat :=
  (⟨t.rows.filter (fun r => decide (¬r.id = id)), t.nextId⟩,
   t.rows.countP (fun r => decide (r.id = id)))

/-- DeleteUser (postgres/client.go:128-146): zero affected rows is turned into
the "user with id %d not found" error. -/
def DeleteUser (db : DB) (tableName : String) (id : Int) : Except PgError DB :=
  match Assoc.find db tableName with
  | none => .error (.undefinedTable tableName)
  | some t =>
    if (deleteExec t id).2 = 0 then .error (.userNotFound id)
    else .ok (Assoc.set db tableName (deleteExec t id).1)

/-- A statement a transactional work function can execute against the tx
handle (the tests issue plain INSERTs; UPDATE and DELETE are included so the
atomicity theorem covers every facade statement form). -/
inductive Stmt where
  | insertStmt (tableName name email : String)
  | updateStmt (tableName : String) (id : Int) (name email : String)
  | deleteStmt (tableName : String) (id : Int)
deriving DecidableEq, Repr

def execStmt (db : DB) (now : Nat) : Stmt → Except PgError DB
| .insertStmt tn name email =>
    match InsertUser db tn name email now with
    | .error e => .error e
    | .ok (db2, _) => .ok db2
| .updateStmt tn id name email =>
    match Assoc.find db tn with
    | none => .error (.undefinedTable tn)
    | some t =>
      match updateExec t id name email with
      | .error e => .error e
      | .ok (t2, _) => .ok (Assoc.set db tn t2)
| .deleteStmt tn id =>
    match Assoc.find db tn with
    | none => .error (.undefinedTable tn)
    | some t => .ok (Assoc.set db tn (deleteExec t id).1)

/-- The work function body: statements run sequentially on the tx-local state,
stopping at the first error. -/
def runWork (now : Nat) : DB → List Stmt → Except PgError DB
| db, [] => .ok db
| db, s :: rest =>
    match execStmt db now s with
    | .error e => .error e
    | .ok db2 => runWork now db2 rest

/-- What ExecuteInTransaction leaves behind: the error returned to the caller
and the database state visible after the call. -/
structure TxResult where
  err : Option PgError
  db : DB
deriving DecidableEq, Repr

/-- ExecuteInTransaction (postgres/client.go:163-182).  On a work-function
error the code calls tx.Rollback() — discarding its return value — and
returns the original error, so the caller sees the pre-transaction state; on
success tx.Commit() publishes the tx-local state (commitErr models the
driver's commit result, returned unchanged by the facade).  rollbackErr
models a failure of tx.Rollback() itself; the source ignores it, so it does
not influence the result. -/
def ExecuteInTransaction (db : DB) (now : Nat) (work : List Stmt)
    (_rollbackErr commitErr : Option PgError) : TxResult :=
  match runWork now db work with
  | .error e => ⟨some e, db⟩
  | .ok db2 =>
    match commitErr with
    | some ce => ⟨some ce, db⟩
    | none => ⟨none, db2⟩

end PG

/-! ### The document-store facade (dynamodb/client.go)

DynamoDB state: tables of items, an item being an attribute map.  Update
expressions travel as strings; the engine tokenizes them and resolves tokens
that begin with a hash mark through ExpressionAttributeNames and tokens that
begin with a colon through ExpressionAttributeValues, failing validation when
a token cannot be resolved. -/

namespace DDB

inductive AttrVal where
  | s (v : String)
  | n (v : String)
deriving DecidableEq, Repr

abbrev Item := List (String × AttrVal)

abbrev DStore := List (String × List Item)

inductive DdbError where
  | validationError
  | resourceNotFound (tableName : String)
deriving DecidableEq, Repr

/-- An item matches a key when it carries every key attribute with the same
value (the schema fixed by CreateTable has the single hash key "id"). -/
def itemMatchesKey (it key : Item) : Bool :=
  key.all (fun kv => decide (Assoc.find it kv.1 = some kv.2))

/-- GetItem (dynamodb/client.go:71-80): returns result.Item, which is empty —
not an error — when no item has the key. -/
def GetItem (store : DStore) (tableName : String) (key : Item) :
    Except DdbError Item :=
  match Assoc.find store tableName with
  | none => .error (.resourceNotFound tableName)
  | some items => .ok ((items.find? (fun it => itemMatchesKey it key)).getD [])

/-- The UpdateItem request the facade sends to the engine. -/
structure UpdateItemInput where
  tableName : String
  key : Item
  updateExpression : String
  expressionAttributeValues : List (String × AttrVal)
  expressionAttributeNames : Option (List (String × String))
deriving DecidableEq, Repr

/-- Whitespace tokenization of an update expression. -/
def wordsAux : List Char → List Char → List (List Char)
| [], acc => if acc = [] then [] else [acc.reverse]
| c :: rest, acc =>
    if c = ' ' then
      if acc = [] then wordsAux rest [] else acc.reverse :: wordsAux rest []
    else wordsAux rest (c :: acc)

/-- Recognize the single-assignment form SET name = value used by the
repository; anything else is malformed for this fragment. -/
def parseSetExpr (updateExpression : String) :
    Option (List Char × List Char) :=
  match wordsAux updateExpression.toList [] with
  | [w1, ntok, w2, vtok] =>
    if w1 = "SET".toList ∧ w2 = "=".toList then some (ntok, vtok) else none
  | _ => none

/-- A token beginning with a hash mark is an expression attribute name alias
and must be declared in ExpressionAttributeNames; any other token names the
attribute directly. -/
def resolveNameTok (names : Option (List (String × String)))
    (ntok : List Char) : Except DdbError String :=
  match ntok with
  | '#' :: _ =>
    match names with
    | none => .error .validationError
    | some ns =>
      match Assoc.find ns (String.mk ntok) with
      | none => .error .validationError
      | some attr => .ok attr
  | _ => .ok (String.mk ntok)

/-- A value operand must be a colon-reference declared in
ExpressionAttributeValues. -/
def resolveValTok (vals : List (String × AttrVal)) (vtok : List Char) :
    Except DdbError AttrVal :=
  match vtok with
  | ':' :: _ =>
    match Assoc.find vals (String.mk vtok) with
    | none => .error .validationError
    | some v => .ok v
  | _ => .error .validationError

/-- Replace the item matching the key, or append the updated item when the
key was absent (UpdateItem upserts). -/
def replaceItem (items : List Item) (key : Item) (newIt : Item) : List Item :=
  if items.any (fun it => itemMatchesKey it key) then
    items.map (fun it => if itemMatchesKey it key then newIt else it)
  else items ++ [newIt]

/-- The engine's UpdateItem: resolve the expression against the request's
name and value maps, then apply the assignment to the keyed item. -/
def ddbUpdateItem (store : DStore) (inp : UpdateItemInput) :
    Except DdbError DStore :=
  match Assoc.find store inp.tableName with
  | none => .error (.resourceNotFound inp.tableName)
  | some items =>
    match parseSetExpr inp.updateExpression with
    | none => .error .validationError
    | some (ntok, vtok) =>
      match resolveNameTok inp.expressionAttributeNames ntok with
      | .error e => .error e
      | .ok attr =>
        match resolveValTok inp.expressionAttributeValues vtok with
        | .error e => .error e
        | .ok v =>
          let old := (items.find? (fun it => itemMatchesKey it inp.key)).getD inp.key
          .ok (Assoc.set store inp.tableName
                 (replaceItem items inp.key (Assoc.set old attr v)))

/-- UpdateItem (dynamodb/client.go:83-91): the facade takes only the key, the
update expression and the expression values; the request it builds never sets
ExpressionAttributeNames. -/
def UpdateItem (store : DStore) (tableName : String) (key : Item)
    (updateExpression : String)
    (expressionAttributeValues : List (String × AttrVal)) :
    Except DdbError DStore :=
  ddbUpdateItem store
    ⟨tableName, key, updateExpression, expressionAttributeValues, none⟩

/-- Modelled from the spec: the updateItem variant that additionally accepts
the optional expression attribute name aliases and forwards them on the
request — the operation the spec describes and the repository's own
TestDynamoDBUpdateItem (the TestMain variant concatenated into
dynamodb/client.go, lines 294-307) calls with a sixth argument; no such
method exists in the UpdateItem of src/dynamodb/client.go. -/
def UpdateItemWithNames (store : DStore) (tableName : String) (key : Item)
    (updateExpression : String)
    (expressionAttributeValues : List (String × AttrVal))
    (expressionAttributeNames : List (String × String)) :
    Except DdbError DStore :=
  ddbUpdateItem store
    ⟨tableName, key, updateExpression, expressionAttributeValues,
     some expressionAttributeNames⟩

end DDB

/-! ### The cache facade (redis/client.go, src/unnamed/part_002)

Redis state: the string keyspace (value plus optional absolute expiry stamp)
and the list keyspace.  Time is an explicit Nat parameter; SET with a zero
expiration stores the key without a TTL, any other expiration stores an
absolute deadline, and GET treats a key whose deadline has passed exactly
like an absent key (redis.Nil). -/

namespace RD

structure Entry where
  value : String
  expireAt : Option Nat
deriving DecidableEq, Repr

structure RState where
  kv : List (String × Entry)
  lists : List (String × List String)
deriving DecidableEq, Repr

inductive RError where
  | redisNil
deriving DecidableEq, Repr

/-- SET (part_002:35-37): expiration 0 means no TTL. -/
def setState (st : RState) (k v : String) (ttl now : Nat) : RState :=
  ⟨Assoc.set st.kv k ⟨v, if ttl = 0 then none else some (now + ttl)⟩, st.lists⟩

def Set (st : RState) (k v : String) (ttl now : Nat) :
    Except RError RState :=
  .ok (setState st k v ttl now)

/-- GET (part_002:40-42): an absent key and a key whose TTL has lapsed both
surface as redis.Nil. -/
def Get (st : RState) (k : String) (now : Nat) : Except RError String :=
  match Assoc.find st.kv k with
  | none => .error .redisNil
  | some e =>
    match e.expireAt with
    | none => .ok e.value
    | some exp => if now < exp then .ok e.value else .error .redisNil

/-- DEL removes a key of either kind; deleting an absent key is a no-op. -/
def delKey (st : RState) (k : String) : RState :=
  ⟨Assoc.erase st.kv k, Assoc.erase st.lists k⟩

def delState (st : RState) (ks : List String) : RState :=
  ks.foldl delKey st

/-- Delete (part_002:45-47): DEL is variadic and its Err() is nil whether or
not any key existed. -/
def Delete (st : RState) (ks : List String) : Except RError RState :=
  .ok (delState st ks)

def listOf (st : RState) (k : String) : List String :=
  (Assoc.find st.lists k).getD []

/-- LPUSH (part_002:85-87): each value is pushed in turn onto the head, so a
multi-value push lands in reverse argument order. -/
def lpushState (st : RState) (k : String) (vs : List String) : RState :=
  ⟨st.kv, Assoc.set st.lists k (vs.reverse ++ listOf st k)⟩

def LPush (st : RState) (k : String) (vs : List String) :
    Except RError RState :=
  .ok (lpushState st k vs)

/-- RPUSH (part_002:90-92): values are appended on the tail in argument
order. -/
def rpushState (st : RState) (k : String) (vs : List String) : RState :=
  ⟨st.kv, Assoc.set st.lists k (listOf st k ++ vs)⟩

def RPush (st : RState) (k : String) (vs : List String) :
    Except RError RState :=
  .ok (rpushState st k vs)

/-- LRANGE index semantics: negative indices count from the tail (-1 is the
last element), the start is clamped to 0, the stop to the last element, and
both ends are inclusive. -/
def lrangeList (l : List String) (start stop : Int) : List String :=
  let len : Int := l.length
  let s0 := if start < 0 then len + start else start
  let e0 := if stop < 0 then len + stop else stop
  let s1 := max s0 0
  let e1 := min e0 (len - 1)
  if e1 < s1 then [] else (l.drop s1.toNat).take (e1 - s1 + 1).toNat

/-- LRange (part_002:95-97). -/
def LRange (st : RState) (k : String) (start stop : Int) :
    Except RError (List String) :=
  .ok (lrangeList (listOf st k) start stop)

end RD

/-! ### Teardown paths of the test harness

postgres/client_test.go:52-57 and dynamodb/client_test.go:48-53 release the
container inside the per-test cleanup closure and turn a terminate error
into t.Fatalf; the TestMain variants (dynamodb/client.go:200-206 and the
redis TestMain in part_000) panic on a terminate error; only the teardowns
in examples/integration_test.go log the error via t.Logf. -/

namespace Harness

inductive TestOutcome where
  | ok
  | loggedOnly (msg : String)
  | testFatal (msg : String)
deriving DecidableEq, Repr

inductive MainOutcome where
  | exitCode (code : Nat)
  | panicked (msg : String)
deriving DecidableEq, Repr

/-- The cleanup closure returned by setupPostgres
(postgres/client_test.go:52-57): client.Close() whose error is discarded,
then TerminateContainer whose error is raised via t.Fatalf. -/
def cleanupPostgres (_closeErr terminateErr : Option String) : TestOutcome :=
  match terminateErr with
  | some e => .testFatal ("failed to terminate container: " ++ e)
  | none => .ok

/-- The TestMain teardown of the dynamodb suite (the variant concatenated
into dynamodb/client.go, lines 200-206): a terminate error panics, otherwise
the process exits with the test run's code. -/
def testMainTeardown (code : Nat) (terminateErr : Option String) :
    MainOutcome :=
  match terminateErr with
  | some e => .panicked e
  | none => .exitCode code

/-- The deferred teardown of the examples suite
(examples/integration_test.go): a terminate error is logged via t.Logf. -/
def cleanupExamples (terminateErr : Option String) : TestOutcome :=
  match terminateErr with
  | some e => .loggedOnly ("failed to terminate redis container: " ++ e)
  | none => .ok

end Harness

/-- Decidable equality of facade results, so witnesses can be settled by
evaluation. -/
instance {ε α : Type} [DecidableEq ε] [DecidableEq α] : DecidableEq (Except ε α)
| .error x, .error y =>
    if h : x = y then .isTrue (congrArg Except.error h)
    else .isFalse (fun hh => h (Except.error.inj hh))
| .ok x, .ok y =>
    if h : x = y then .isTrue (congrArg Except.ok h)
    else .isFalse (fun hh => h (Except.ok.inj hh))
| .error _, .ok _ => .isFalse (fun hh => Except.noConfusion hh)
| .ok _, .error _ => .isFalse (fun hh => Except.noConfusion hh)

/-! ### Concrete fixtures used by the witnesses and counterexamples -/

/-- The users table of TestPostgreSQLTransaction after the successful
transaction: John Doe and Jane Doe are persisted. -/
def dbC1 : PG.DB :=
  [("users", ⟨[⟨1, "John Doe", "john@example.com", 0⟩,
               ⟨2, "Jane Doe", "jane@example.com", 0⟩], 3⟩)]

/-- The rollback-case work function of TestPostgreSQLTransaction
(postgres/client_test.go:255-269): insert Bob Johnson, then fail on the
duplicate email john@example.com. -/
def workC1 : List PG.Stmt :=
  [.insertStmt "users" "Bob Johnson" "bob@example.com",
   .insertStmt "users" "Another User" "john@example.com"]

/-- Same fixture for the rollback-error analysis of claim C2. -/
def dbC2 : PG.DB :=
  [("users", ⟨[⟨1, "John Doe", "john@example.com", 0⟩], 2⟩)]

def workC2 : List PG.Stmt :=
  [.insertStmt "users" "Bob Johnson" "bob@example.com",
   .insertStmt "users" "Another User" "john@example.com"]

/-! ### Helper lemmas -/

theorem Assoc.find_set_self {α : Type} (l : List (String × α)) (k : String)
    (v : α) : Assoc.find (Assoc.set l k v) k = some v := by
  induction l with
  | nil => simp [Assoc.find, Assoc.set]
  | cons p rest ih =>
    by_cases h : p.1 = k
    · simp [Assoc.set, h, Assoc.find]
    · simp [Assoc.set, h, Assoc.find, ih]

theorem Assoc.find_set_ne {α : Type} (l : List (String × α)) (k k2 : String)
    (v : α) (h : k2 ≠ k) :
    Assoc.find (Assoc.set l k v) k2 = Assoc.find l k2 := by
  have h2 : ¬k = k2 := fun hh => h hh.symm
  induction l with
  | nil => simp [Assoc.find, Assoc.set, h2]
  | cons p rest ih =>
    by_cases hp : p.1 = k
    · simp [Assoc.set, Assoc.find, hp, h2]
    · simp [Assoc.set, hp, Assoc.find, ih]

theorem Assoc.erase_erase {α : Type} (l : List (String × α)) (k : String) :
    Assoc.erase (Assoc.erase l k) k = Assoc.erase l k := by
  induction l with
  | nil => simp [Assoc.erase]
  | cons p rest ih =>
    by_cases h : p.1 = k
    · simp [Assoc.erase, h, ih]
    · simp [Assoc.erase, h, ih]

theorem Assoc.erase_of_find_none {α : Type} (l : List (String × α))
    (k : String) (h : Assoc.find l k = none) : Assoc.erase l k = l := by
  induction l with
  | nil => simp [Assoc.erase]
  | cons p rest ih =>
    by_cases hp : p.1 = k
    · simp [Assoc.find, hp] at h
    · simp [Assoc.find, hp] at h
      simp [Assoc.erase, hp, ih h]

theorem Assoc.find_append_none {α : Type} (l : List (String × α))
    (k : String) (v : α) (h : Assoc.find l k = none) :
    Assoc.find (l ++ [(k, v)]) k = some v := by
  induction l with
  | nil => simp [Assoc.find]
  | cons p rest ih =>
    by_cases hp : p.1 = k
    · simp [Assoc.find, hp] at h
    · simp [Assoc.find, hp] at h
      simp [Assoc.find, hp, ih h]

theorem PG.createState_find_isSome (db : PG.DB) (tn : String) :
    (Assoc.find (PG.createState db tn) tn).isSome := by
  unfold PG.createState
  cases h : Assoc.find db tn with
  | some t => simp [h]
  | none => simp [Assoc.find_append_none db tn PG.Table.empty h]


/-! ### Claim theorems -/

/-- C1: ExecuteInTransaction is all-or-nothing.  If the work function
completes without error, the tx-local state it produced is committed whole;
if any statement of the work function fails, the caller-visible database is
exactly the pre-transaction state — every statement executed so far is
rolled back — and the work function's own error is returned.  In particular
a transaction inserting row A and then failing on row B persists neither
(see the witness, which replays the rollback case of
TestPostgreSQLTransaction). -/
theorem executeInTransaction_atomic (db : PG.DB) (now : Nat)
    (work : List PG.Stmt) (rbe ce : Option PG.PgError) :
    (∀ e, PG.runWork now db work = .error e →
        PG.ExecuteInTransaction db now work rbe ce = ⟨some e, db⟩) ∧
    (∀ db2, PG.runWork now db work = .ok db2 →
        PG.ExecuteInTransaction db now work rbe none = ⟨none, db2⟩) := by
  constructor
  · intro e h
    simp [PG.ExecuteInTransaction, h]
  · intro db2 h
    simp [PG.ExecuteInTransaction, h]

/-- C1 witness: the duplicate-email transaction of TestPostgreSQLTransaction
(insert Bob Johnson, then fail on john@example.com) returns the uniqueness
violation and leaves the two previously committed rows — and nothing else —
in the table. -/
theorem executeInTransaction_atomic_witness :
    PG.ExecuteInTransaction dbC1 0 workC1 none none =
      ⟨some (.uniqueViolation "john@example.com"), dbC1⟩ :=
  (executeInTransaction_atomic dbC1 0 workC1 none none).1
    (.uniqueViolation "john@example.com") (by decide)

/-- C2 counterexample: the claim says a failing rollback is surfaced to the
caller as a secondary, fatal condition.  It is not: ExecuteInTransaction
ignores the value returned by tx.Rollback() (postgres/client.go:177), so its
result is bit-for-bit identical whether or not the rollback fails, and the
only error the caller sees is the work function's uniqueness violation —
never the rollback failure. -/
theorem rollbackFailure_not_surfaced_counterexample :
    PG.ExecuteInTransaction dbC2 0 workC2 (some .rollbackFailed) none =
      PG.ExecuteInTransaction dbC2 0 workC2 none none ∧
    (PG.ExecuteInTransaction dbC2 0 workC2 (some .rollbackFailed) none).err =
      some (.uniqueViolation "john@example.com") ∧
    (PG.ExecuteInTransaction dbC2 0 workC2 (some .rollbackFailed) none).err ≠
      some .rollbackFailed := by
  refine ⟨rfl, by decide, by decide⟩

/-- C2 amended: when the work function fails, a rollback is issued and the
original work error is returned to the caller; a failure of the rollback
itself is silently discarded — the source ignores the Rollback() return
value, so the result does not depend on it. -/
theorem rollback_discarded_original_error_returned (db : PG.DB) (now : Nat)
    (work : List PG.Stmt) (rbe : Option PG.PgError) (e : PG.PgError)
    (h : PG.runWork now db work = .error e) :
    PG.ExecuteInTransaction db now work rbe none = ⟨some e, db⟩ ∧
    PG.ExecuteInTransaction db now work rbe none =
      PG.ExecuteInTransaction db now work none none := by
  constructor
  · simp [PG.ExecuteInTransaction, h]
  · rfl

/-- C2 amended witness: on the duplicate-email transaction with a failing
rollback, the caller still receives exactly the original uniqueness
violation over the untouched database. -/
theorem rollback_discarded_witness :
    PG.ExecuteInTransaction dbC2 0 workC2 (some .rollbackFailed) none =
      ⟨some (.uniqueViolation "john@example.com"), dbC2⟩ :=
  (rollback_discarded_original_error_returned dbC2 0 workC2
    (some .rollbackFailed) (.uniqueViolation "john@example.com")
    (by decide)).1

/-- C3: the facade's UpdateItem cannot carry expression attribute name
aliases — it builds the request with ExpressionAttributeNames unset — so the
repository's own TestDynamoDBUpdateItem input ("SET #n = :name" with the
alias map {#n : name}) fails with a validation error instead of renaming
John Doe; the spec-modelled variant that forwards the aliases performs the
update. -/
theorem updateItem_drops_name_aliases :
    DDB.UpdateItem
        [("users-update", [[("id", .s "user-1"), ("name", .s "John Doe")]])]
        "users-update" [("id", .s "user-1")] "SET #n = :name"
        [(":name", .s "Jane Doe")] = .error .validationError ∧
    DDB.UpdateItemWithNames
        [("users-update", [[("id", .s "user-1"), ("name", .s "John Doe")]])]
        "users-update" [("id", .s "user-1")] "SET #n = :name"
        [(":name", .s "Jane Doe")] [("#n", "name")] =
      .ok [("users-update", [[("id", .s "user-1"), ("name", .s "Jane Doe")]])] := by
  refine ⟨by decide, by decide⟩

/-- C4 counterexample: on the teardown paths the claim cites, a terminate
error is raised, not merely logged — the setupPostgres cleanup turns it into
t.Fatalf and the dynamodb TestMain teardown panics. -/
theorem teardownError_thrown_counterexample :
    Harness.cleanupPostgres none (some "boom") =
      .testFatal ("failed to terminate container: " ++ "boom") ∧
    Harness.testMainTeardown 0 (some "boom") = .panicked "boom" := by
  refine ⟨rfl, rfl⟩

/-- C4 amended: a terminate error during teardown is propagated on the cited
paths — the per-test cleanups of the postgres and dynamodb suites fail the
test via t.Fatalf and the TestMain teardown panics — while only the examples
suite's deferred teardowns merely log it; a clean terminate tears down
silently everywhere. -/
theorem teardownError_propagates (ce : Option String) (e : String)
    (code : Nat) :
    Harness.cleanupPostgres ce (some e) =
      .testFatal ("failed to terminate container: " ++ e) ∧
    Harness.cleanupPostgres ce none = .ok ∧
    Harness.testMainTeardown code (some e) = .panicked e ∧
    Harness.testMainTeardown code none = .exitCode code ∧
    Harness.cleanupExamples (some e) =
      .loggedOnly ("failed to terminate redis container: " ++ e) ∧
    Harness.cleanupExamples none = .ok :=
  ⟨rfl, rfl, rfl, rfl, rfl, rfl⟩

/-- Fixture for C5/C6/C10: a users table holding John Doe with id 1. -/
def dbC5 : PG.DB :=
  [("users", ⟨[⟨1, "John Doe", "john@example.com", 0⟩], 2⟩)]

/-- C5: with the table present, UpdateUser and DeleteUser return the
"user with id not found" error precisely on the ids no row carries — zero
affected rows — and succeed whenever a row with the id exists (for
UpdateUser, provided the new email does not collide with a different
row, which would be a uniqueness failure instead). -/
theorem updateUser_deleteUser_zero_rows (db : PG.DB) (tn : String)
    (t : PG.Table) (id : Int) (name email : String)
    (h : Assoc.find db tn = some t) :
    ((∀ r ∈ t.rows, r.id ≠ id) →
      PG.UpdateUser db tn id name email = .error (.userNotFound id) ∧
      PG.DeleteUser db tn id = .error (.userNotFound id)) ∧
    ((∃ r ∈ t.rows, r.id = id) →
      ∃ db2, PG.DeleteUser db tn id = .ok db2) ∧
    ((∃ r ∈ t.rows, r.id = id) →
      (∀ r ∈ t.rows, r.email = email → r.id = id) →
      ∃ db2, PG.UpdateUser db tn id name email = .ok db2) := by
  refine ⟨?_, ?_, ?_⟩
  · intro hno
    have hcnt : t.rows.countP (fun r => decide (r.id = id)) = 0 := by
      rw [List.countP_eq_zero]
      intro r hr
      simpa using hno r hr
    have hcond : ¬((∃ r ∈ t.rows, r.id = id) ∧
        (∃ r ∈ t.rows, ¬r.id = id ∧ r.email = email)) := by
      rintro ⟨⟨r, hr, hid⟩, -⟩
      exact hno r hr hid
    constructor
    · simp [PG.UpdateUser, h, PG.updateExec, hcond, hcnt]
    · simp [PG.DeleteUser, h, PG.deleteExec, hcnt]
  · intro hyes
    have hcnt : ¬t.rows.countP (fun r => decide (r.id = id)) = 0 := by
      have : 0 < t.rows.countP (fun r => decide (r.id = id)) := by
        rw [List.countP_pos_iff]
        obtain ⟨r, hr, hid⟩ := hyes
        exact ⟨r, hr, by simpa using hid⟩
      omega
    exact ⟨Assoc.set db tn (PG.deleteExec t id).1,
      by simp [PG.DeleteUser, h, PG.deleteExec, hcnt]⟩
  · intro hyes huniq
    have hcnt : ¬t.rows.countP (fun r => decide (r.id = id)) = 0 := by
      have : 0 < t.rows.countP (fun r => decide (r.id = id)) := by
        rw [List.countP_pos_iff]
        obtain ⟨r, hr, hid⟩ := hyes
        exact ⟨r, hr, by simpa using hid⟩
      omega
    have hcond : ¬((∃ r ∈ t.rows, r.id = id) ∧
        (∃ r ∈ t.rows, ¬r.id = id ∧ r.email = email)) := by
      rintro ⟨-, ⟨r, hr, hid, hem⟩⟩
      exact hid (huniq r hr hem)
    exact ⟨Assoc.set db tn ⟨t.rows.map
        (fun r => if r.id = id then ⟨r.id, name, email, r.created_at⟩ else r),
        t.nextId⟩,
      by simp [PG.UpdateUser, h, PG.updateExec, hcond, hcnt]⟩

/-- C5 witness: on the singleton users table, id 99 makes both operations
fail with the not-found error, while id 1 lets DeleteUser succeed. -/
theorem updateUser_deleteUser_zero_rows_witness :
    PG.UpdateUser dbC5 "users" 99 "X" "x@example.com" =
      .error (.userNotFound 99) ∧
    PG.DeleteUser dbC5 "users" 99 = .error (.userNotFound 99) ∧
    ∃ db2, PG.DeleteUser dbC5 "users" 1 = .ok db2 := by
  have h1 := (updateUser_deleteUser_zero_rows dbC5 "users"
    ⟨[⟨1, "John Doe", "john@example.com", 0⟩], 2⟩ 99 "X" "x@example.com"
    (by decide)).1 (by decide)
  have h2 := (updateUser_deleteUser_zero_rows dbC5 "users"
    ⟨[⟨1, "John Doe", "john@example.com", 0⟩], 2⟩ 1 "X" "x@example.com"
    (by decide)).2.1 (by decide)
  exact ⟨h1.1, h1.2, h2⟩

/-- Fixture for C6: a document-store table holding the item user-1. -/
def storeC6 : DDB.DStore :=
  [("users", [[("id", .s "user-1"), ("name", .s "John Doe")]])]

/-- C6: reading an absent record is not an error — with the tables present,
GetUser on an id no row carries returns the nil sentinel with no error, and
GetItem on a key no item matches returns the empty item with no error. -/
theorem absent_reads_not_errors (db : PG.DB) (tn : String) (t : PG.Table)
    (id : Int) (store : DDB.DStore) (dtn : String) (items : List DDB.Item)
    (key : DDB.Item) (h1 : Assoc.find db tn = some t)
    (h2 : ∀ r ∈ t.rows, r.id ≠ id) (h3 : Assoc.find store dtn = some items)
    (h4 : ∀ it ∈ items, DDB.itemMatchesKey it key = false) :
    PG.GetUser db tn id = .ok none ∧ DDB.GetItem store dtn key = .ok [] := by
  constructor
  · have hf : t.rows.find? (fun r => decide (r.id = id)) = none := by
      rw [List.find?_eq_none]
      intro r hr
      simpa using h2 r hr
    simp [PG.GetUser, h1, PG.getContext, hf]
  · have hf : items.find? (fun it => DDB.itemMatchesKey it key) = none := by
      rw [List.find?_eq_none]
      intro it hit
      simp [h4 it hit]
    simp [DDB.GetItem, h3, hf]

/-- C6 witness: id 2 is absent from the singleton users table and key
user-2 is absent from the document table; both reads return their empty
result without error. -/
theorem absent_reads_not_errors_witness :
    PG.GetUser dbC5 "users" 2 = .ok none ∧
    DDB.GetItem storeC6 "users" [("id", .s "user-2")] = .ok [] :=
  absent_reads_not_errors dbC5 "users"
    ⟨[⟨1, "John Doe", "john@example.com", 0⟩], 2⟩ 2 storeC6 "users"
    [[("id", .s "user-1"), ("name", .s "John Doe")]] [("id", .s "user-2")]
    (by decide) (by decide) (by decide) (by decide)

/-- C7: removal and creation are idempotent — deleting an absent cache key
succeeds and leaves the state unchanged and deleting twice equals deleting
once; dropping an absent table succeeds unchanged and dropping twice equals
dropping once; creating an existing table succeeds and leaves the catalog —
including the existing table — unchanged, and creating twice equals
creating once. -/
theorem idempotent_delete_drop_create (st : RD.RState) (k : String)
    (db : PG.DB) (tn tn2 : String) :
    ((Assoc.find st.kv k = none ∧ Assoc.find st.lists k = none) →
      RD.Delete st [k] = .ok st) ∧
    RD.delState (RD.delState st [k]) [k] = RD.delState st [k] ∧
    (Assoc.find db tn = none → PG.DropTable db tn = .ok db) ∧
    PG.dropState (PG.dropState db tn) tn = PG.dropState db tn ∧
    ((∃ t0, Assoc.find db tn2 = some t0) → PG.CreateTable db tn2 = .ok db) ∧
    PG.createState (PG.createState db tn2) tn2 = PG.createState db tn2 := by
  refine ⟨?_, ?_, ?_, ?_, ?_, ?_⟩
  · rintro ⟨h1, h2⟩
    simp [RD.Delete, RD.delState, RD.delKey, Assoc.erase_of_find_none _ _ h1,
      Assoc.erase_of_find_none _ _ h2]
  · simp [RD.delState, RD.delKey, Assoc.erase_erase]
  · intro h
    simp [PG.DropTable, PG.dropState, Assoc.erase_of_find_none _ _ h]
  · simp [PG.dropState, Assoc.erase_erase]
  · rintro ⟨t0, h⟩
    simp [PG.CreateTable, PG.createState, h]
  · cases hf : Assoc.find (PG.createState db tn2) tn2 with
    | some t =>
      conv_lhs => rw [PG.createState]
      simp [hf]
    | none =>
      have hs := PG.createState_find_isSome db tn2
      rw [hf] at hs
      simp at hs

/-- C7 witness: deleting the missing key, dropping the missing table and
re-creating the existing users table all succeed and leave their state
untouched. -/
theorem idempotent_delete_drop_create_witness :
    RD.Delete ⟨[], []⟩ ["missing"] = .ok ⟨[], []⟩ ∧
    PG.DropTable [("users", PG.Table.empty)] "ghost" =
      .ok [("users", PG.Table.empty)] ∧
    PG.CreateTable [("users", PG.Table.empty)] "users" =
      .ok [("users", PG.Table.empty)] :=
  ⟨(idempotent_delete_drop_create ⟨[], []⟩ "missing"
      [("users", PG.Table.empty)] "ghost" "users").1 ⟨rfl, rfl⟩,
   (idempotent_delete_drop_create ⟨[], []⟩ "missing"
      [("users", PG.Table.empty)] "ghost" "users").2.2.1 (by decide),
   (idempotent_delete_drop_create ⟨[], []⟩ "missing"
      [("users", PG.Table.empty)] "ghost" "users").2.2.2.2.1
     ⟨PG.Table.empty, by decide⟩⟩

/-- C8: for a key set with a positive ttl, a get at the set instant returns
the value, a get more than ttl later fails with redis.Nil, and the same
redis.Nil is what a get of a never-set key produces — at the facade boundary
an expired key is indistinguishable from an absent one. -/
theorem expired_equals_absent (st : RD.RState) (k v : String) (t s n : Nat)
    (ht : 0 < t) (hn : s + t < n) (habs : Assoc.find st.kv k = none) :
    RD.Get (RD.setState st k v t s) k s = .ok v ∧
    RD.Get (RD.setState st k v t s) k n = .error .redisNil ∧
    RD.Get st k n = .error .redisNil := by
  have hne : ¬t = 0 := by omega
  have hf : Assoc.find (RD.setState st k v t s).kv k =
      some ⟨v, some (s + t)⟩ := by
    simp [RD.setState, hne, Assoc.find_set_self]
  refine ⟨?_, ?_, ?_⟩
  · have hlt : s < s + t := by omega
    simp [RD.Get, hf, hlt]
  · have hge : ¬n < s + t := by omega
    simp [RD.Get, hf, hge]
  · simp [RD.Get, habs]

/-- C8 witness: the TestRedisExpiration scenario — set expiring-key with a
1-second ttl at time 0: the immediate get returns the value, the get at
time 2 and the get of the never-set key both fail with redis.Nil. -/
theorem expired_equals_absent_witness :
    RD.Get (RD.setState ⟨[], []⟩ "expiring-key" "value" 1 0) "expiring-key" 0 =
      .ok "value" ∧
    RD.Get (RD.setState ⟨[], []⟩ "expiring-key" "value" 1 0) "expiring-key" 2 =
      .error .redisNil ∧
    RD.Get ⟨[], []⟩ "expiring-key" 2 = .error .redisNil :=
  expired_equals_absent ⟨[], []⟩ "expiring-key" "value" 1 0 2
    (by decide) (by decide) rfl

/-- LRANGE over the full inclusive range 0 to -1 returns the whole list:
0 clamps to the head, -1 normalizes to the last element, and both ends are
inclusive. -/
theorem RD.lrangeList_full (l : List String) : RD.lrangeList l 0 (-1) = l := by
  rcases eq_or_ne l [] with h | h
  · subst h
    rfl
  · have hlen : 0 < l.length := List.length_pos.mpr h
    have c1 : ¬((0 : Int) < 0) := by omega
    have c2 : ((-1 : Int) < 0) := by omega
    have e : (l.length : Int) + -1 = (l.length : Int) - 1 := by ring
    simp only [RD.lrangeList, if_neg c1, if_pos c2, e, min_self, max_self]
    have hc : ¬((l.length : Int) - 1 < 0) := by omega
    rw [if_neg hc]
    have hT : ((l.length : Int) - 1 - 0 + 1).toNat = l.length := by omega
    rw [hT]
    simp

/-- C9: pushes on a fresh list key read back through the full range — RPush
then LRange 0 -1 returns the values in push order, LPush then LRange 0 -1
returns them in reverse push order, and on any state LRange 0 -1 returns
the entire stored list. -/
theorem lrange_push_order (st : RD.RState) (k : String) (vs : List String)
    (h : RD.listOf st k = []) :
    RD.LRange (RD.rpushState st k vs) k 0 (-1) = .ok vs ∧
    RD.LRange (RD.lpushState st k vs) k 0 (-1) = .ok vs.reverse ∧
    RD.LRange st k 0 (-1) = .ok (RD.listOf st k) := by
  have h1 : RD.listOf (RD.rpushState st k vs) k = vs := by
    unfold RD.rpushState
    rw [h]
    simp [RD.listOf, Assoc.find_set_self]
  have h2 : RD.listOf (RD.lpushState st k vs) k = vs.reverse := by
    unfold RD.lpushState
    rw [h]
    simp [RD.listOf, Assoc.find_set_self]
  refine ⟨?_, ?_, ?_⟩
  · simp [RD.LRange, h1, RD.lrangeList_full]
  · simp [RD.LRange, h2, RD.lrangeList_full]
  · simp [RD.LRange, RD.lrangeList_full]

/-- C9 witness: the TestRedisList scenarios — RPush item1..item3 onto the
fresh queue reads back in push order, LPush first..third onto the fresh
stack reads back reversed. -/
theorem lrange_push_order_witness :
    RD.LRange (RD.rpushState ⟨[], []⟩ "queue" ["item1", "item2", "item3"])
        "queue" 0 (-1) = .ok ["item1", "item2", "item3"] ∧
    RD.LRange (RD.lpushState ⟨[], []⟩ "stack" ["first", "second", "third"])
        "stack" 0 (-1) = .ok ["third", "second", "first"] :=
  ⟨(lrange_push_order ⟨[], []⟩ "queue" ["item1", "item2", "item3"] rfl).1,
   (lrange_push_order ⟨[], []⟩ "stack" ["first", "second", "third"] rfl).2.1⟩

/-- Fixtures for C10: the users table before and after renaming id 1. -/
def dbC10 : PG.DB :=
  [("users", ⟨[⟨1, "John Doe", "john@example.com", 0⟩,
               ⟨2, "Jane Smith", "jane@example.com", 5⟩], 3⟩)]

def dbC10after : PG.DB :=
  [("users", ⟨[⟨1, "Johnny", "johnny@example.com", 0⟩,
               ⟨2, "Jane Smith", "jane@example.com", 5⟩], 3⟩)]

/-- C10: UpdateUser is a frame-preserving point update — on success the
named table's rows are exactly the old rows with name and email replaced on
the rows whose id matches (ids, created_at stamps, all other rows and the
serial counter untouched) and every other table of the catalog is unchanged;
when no row has the id, the facade returns the not-found error and the
underlying UPDATE statement leaves the table exactly as it was. -/
theorem updateUser_frame (db db2 : PG.DB) (tn : String) (t : PG.Table)
    (id : Int) (name email : String) (h : Assoc.find db tn = some t) :
    (PG.UpdateUser db tn id name email = .ok db2 →
      Assoc.find db2 tn = some ⟨t.rows.map
          (fun r => if r.id = id then ⟨r.id, name, email, r.created_at⟩ else r),
        t.nextId⟩ ∧
      ∀ tn2, tn2 ≠ tn → Assoc.find db2 tn2 = Assoc.find db tn2) ∧
    ((∀ r ∈ t.rows, r.id ≠ id) →
      PG.UpdateUser db tn id name email = .error (.userNotFound id) ∧
      PG.updateExec t id name email = .ok (t, 0)) := by
  constructor
  · intro hok
    by_cases hcond : (∃ r ∈ t.rows, r.id = id) ∧
        (∃ r ∈ t.rows, ¬r.id = id ∧ r.email = email)
    · simp [PG.UpdateUser, h, PG.updateExec, hcond] at hok
    · by_cases hcnt : t.rows.countP (fun r => decide (r.id = id)) = 0
      · simp [PG.UpdateUser, h, PG.updateExec, hcond, hcnt] at hok
      · have hdb2 : Assoc.set db tn ⟨t.rows.map
            (fun r => if r.id = id then ⟨r.id, name, email, r.created_at⟩ else r),
            t.nextId⟩ = db2 := by
          simpa [PG.UpdateUser, h, PG.updateExec, hcond, hcnt] using hok
        rw [← hdb2]
        exact ⟨Assoc.find_set_self _ _ _,
          fun tn2 hne => Assoc.find_set_ne _ _ _ _ hne⟩
  · intro hno
    have hcnt : t.rows.countP (fun r => decide (r.id = id)) = 0 := by
      rw [List.countP_eq_zero]
      intro r hr
      simpa using hno r hr
    have hcond : ¬((∃ r ∈ t.rows, r.id = id) ∧
        (∃ r ∈ t.rows, ¬r.id = id ∧ r.email = email)) := by
      rintro ⟨⟨r, hr, hid⟩, -⟩
      exact hno r hr hid
    have hmap : t.rows.map
        (fun r => if r.id = id then
          (⟨r.id, name, email, r.created_at⟩ : PG.Row) else r) = t.rows := by
      conv_rhs => rw [← List.map_id t.rows]
      apply List.map_congr_left
      intro r hr
      simp [hno r hr]
    constructor
    · simp [PG.UpdateUser, h, PG.updateExec, hcond, hcnt]
    · simp [PG.updateExec, hcond, hcnt, hmap]

/-- C10 witness: renaming id 1 of the two-row users table rewrites exactly
that row's name and email, keeping its id and created_at and the other row;
updating the absent id 99 returns the not-found error. -/
theorem updateUser_frame_witness :
    Assoc.find dbC10after "users" =
      some ⟨[⟨1, "Johnny", "johnny@example.com", 0⟩,
             ⟨2, "Jane Smith", "jane@example.com", 5⟩], 3⟩ ∧
    PG.UpdateUser dbC10 "users" 99 "X" "x@example.com" =
      .error (.userNotFound 99) :=
  ⟨((updateUser_frame dbC10 dbC10after "users"
      ⟨[⟨1, "John Doe", "john@example.com", 0⟩,
        ⟨2, "Jane Smith", "jane@example.com", 5⟩], 3⟩ 1 "Johnny"
      "johnny@example.com" (by decide)).1 (by decide)).1,
   ((updateUser_frame dbC10 dbC10 "users"
      ⟨[⟨1, "John Doe", "john@example.com", 0⟩,
        ⟨2, "Jane Smith", "jane@example.com", 5⟩], 3⟩ 99 "X"
      "x@example.com" (by decide)).2 (by decide)).1⟩
